import Mathlib

/-!
Verification of the PlotNet network-diagram engine against its
specification.  The repository's visible script
(`PlottedNetworks/CEAS2025/generate_figures.py`) is a declarative client of
a layout/rendering engine (`NeuralNetwork`, `FullyConnectedLayer`,
`plot_network`, `PlotConfig`, `LayerStyle`); the engine itself is described
by the specification.  The engine's operations are modelled here from the
spec; the driver script's concrete graph constructions and configuration
are embedded from the source file.
-/

namespace PlotNet

/-- Modelled from the spec: the collapsing-policy and styling thresholds of
the engine's `PlotConfig` settings object (only the layout-relevant
fields; the missing engine module is `NN_PLOTTING_UTILITIES.PlotConfig`). -/
structure PlotConfig where
  max_neurons_per_layer : Nat
  collapse_neurons_start : Nat
  collapse_neurons_end : Nat
  deriving Repr, DecidableEq

/-- Modelled from the spec: a layer record as built by the driver script's
`FullyConnectedLayer(...)` calls (missing engine module
`NN_DEFINITION_UTILITIES.FullyConnectedLayer`).  `layer_id` is the unique
identifier, `neuron_labels` the optional explicit per-unit labels. -/
structure FullyConnectedLayer where
  layer_id : Nat
  num_neurons : Nat
  name : String
  activation : Option String := none
  neuron_labels : Option (List String) := none
  label_position : Option String := none
  deriving Repr, DecidableEq

/-- Modelled from the spec: the graph of layers, stored insertion-ordered;
each entry keeps the layer together with the parent ids it was added with
(missing engine module `NN_DEFINITION_UTILITIES.NeuralNetwork`). -/
structure NeuralNetwork where
  name : String
  layers : List (FullyConnectedLayer × List Nat) := []
  deriving Repr, DecidableEq

/-- The layer ids present in a network, in insertion order. -/
def NeuralNetwork.ids (nn : NeuralNetwork) : List Nat :=
  nn.layers.map (fun e => e.1.layer_id)

/-- Modelled from the spec: typed structural errors of graph construction. -/
inductive AddLayerError where
  | UnknownParentError (parent_id : Nat)
  | DuplicateIdError (layer_id : Nat)
  | CycleError (layer_id : Nat)
  deriving Repr, DecidableEq

/-- Modelled from the spec: `addLayer(layer, parentIds)` of the missing
`NeuralNetwork.add_layer`.  A self-parent is always illegal (cycle); every
parent id must already be present; the layer id must be fresh.  On success
the layer is appended and its parent edges recorded; expressed in `Except`,
a failure produces no new network, so the input graph is untouched. -/
def add_layer (nn : NeuralNetwork) (l : FullyConnectedLayer)
    (parent_ids : List Nat) : Except AddLayerError NeuralNetwork :=
  if l.layer_id ∈ parent_ids then
    .error (.CycleError l.layer_id)
  else
    match parent_ids.find? (fun p => !(nn.ids.contains p)) with
    | some p => .error (.UnknownParentError p)
    | none =>
      if l.layer_id ∈ nn.ids then
        .error (.DuplicateIdError l.layer_id)
      else
        .ok ⟨nn.name, nn.layers ++ [(l, parent_ids)]⟩

/-- The mutation semantics of `add_layer` seen by an imperative caller: on
failure the exception propagates and the graph is left exactly as it was. -/
def add_layer_run (nn : NeuralNetwork) (l : FullyConnectedLayer)
    (parent_ids : List Nat) : NeuralNetwork :=
  match add_layer nn l parent_ids with
  | .ok nn' => nn'
  | .error _ => nn

/-- Well-formedness of an insertion-ordered entry list relative to ids
`seen` already present: ids are fresh, never their own parent, and every
parent id occurs earlier (in `seen` or in a previous entry). -/
def wfAux (seen : List Nat) : List (FullyConnectedLayer × List Nat) → Bool
  | [] => true
  | (l, ps) :: rest =>
    !(seen.contains l.layer_id) && ps.all (fun p => seen.contains p) &&
      !(ps.contains l.layer_id) && wfAux (seen ++ [l.layer_id]) rest

/-- A network is well formed when its entry list is, starting from no ids. -/
def NeuralNetwork.wf (nn : NeuralNetwork) : Bool := wfAux [] nn.layers

/-! ## Collapsing policy (Layout Engine step 2) -/

/-- A visible drawable unit: either a real unit carrying its original
zero-based index, or the synthetic ellipsis placeholder. -/
inductive VUnit where
  | real (idx : Nat)
  | ellipsis
  deriving Repr, DecidableEq

/-- Modelled from the spec: the collapsing policy of the missing layout
engine.  A layer of `n` units shows all of them when `n ≤
maxUnitsPerLayer`; otherwise the first `collapseStart` units, one ellipsis
placeholder, and the last `collapseEnd` units, in original index order. -/
def visibleUnits (cfg : PlotConfig) (n : Nat) : List VUnit :=
  if n ≤ cfg.max_neurons_per_layer then
    (List.range n).map VUnit.real
  else
    (List.range cfg.collapse_neurons_start).map VUnit.real
      ++ [VUnit.ellipsis]
      ++ (List.range cfg.collapse_neurons_end).map
          (fun i => VUnit.real (n - cfg.collapse_neurons_end + i))

/-- Number of visible units of a layer of `n` true units. -/
def visibleCount (cfg : PlotConfig) (n : Nat) : Nat :=
  (visibleUnits cfg n).length

/-- Whether original index `i` of an `n`-unit layer stays visible. -/
def isVisibleIdx (cfg : PlotConfig) (n i : Nat) : Bool :=
  n ≤ cfg.max_neurons_per_layer || i < cfg.collapse_neurons_start ||
    n - cfg.collapse_neurons_end ≤ i

/-- Modelled from the spec: connection-endpoint resolution of the missing
layout engine.  A true unit index is drawn at itself when visible and is
redirected to the ellipsis placeholder when collapsed. -/
def redirectUnit (cfg : PlotConfig) (n i : Nat) : VUnit :=
  if isVisibleIdx cfg n i then VUnit.real i else VUnit.ellipsis

/-- Modelled from the spec: the drawn segments of one parent→child edge in
the missing layout engine, a dense all-to-all mesh between the two layers'
visible units. -/
def drawnConnections (cfg : PlotConfig) (m n : Nat) : List (VUnit × VUnit) :=
  (visibleUnits cfg m).flatMap
    (fun u => (visibleUnits cfg n).map (fun v => (u, v)))

/-- Original indices of the real units in a visible-unit list, in drawing
order. -/
def realIndices (us : List VUnit) : List Nat :=
  us.filterMap (fun u => match u with | .real i => some i | .ellipsis => none)

/-! ## Topological order -/

/-- Removes from the pending entries the first one all of whose parents
have already been emitted, returning it with the remaining entries;
scanning in insertion order breaks ties among ready layers by insertion
order. -/
def pickReady (emitted : List Nat) :
    List (FullyConnectedLayer × List Nat) →
      Option ((FullyConnectedLayer × List Nat) ×
        List (FullyConnectedLayer × List Nat))
  | [] => none
  | e :: rest =>
    if e.2.all (fun p => emitted.contains p) then some (e, rest)
    else
      match pickReady emitted rest with
      | some (r, rest') => some (r, e :: rest')
      | none => none

/-- Kahn's algorithm on the pending entry list, with fuel bounding the
number of emissions. -/
def kahnAux : Nat → List Nat → List (FullyConnectedLayer × List Nat) →
    List Nat
  | 0, _, _ => []
  | fuel + 1, emitted, entries =>
    match pickReady emitted entries with
    | none => []
    | some (e, rest) =>
        e.1.layer_id :: kahnAux fuel (emitted ++ [e.1.layer_id]) rest

/-- Modelled from the spec: `topologicalOrder()` of the missing graph
model — a sequence of layer ids in which every parent precedes every
child, ties among unconstrained layers broken by insertion order. -/
def topologicalOrder (nn : NeuralNetwork) : List Nat :=
  kahnAux nn.layers.length [] nn.layers

/-! ## Layout Engine: ranking and cross-axis placement -/

/-- The topology of a frozen network: each layer's id with its parent ids,
in insertion order. -/
def structureOf (nn : NeuralNetwork) : List (Nat × List Nat) :=
  nn.layers.map (fun e => (e.1.layer_id, e.2))

/-- Ids of the topology list, in insertion order. -/
def idsOf (all : List (Nat × List Nat)) : List Nat := all.map (fun e => e.1)

/-- Insertion index of a layer id in the topology. -/
def idxIn (all : List (Nat × List Nat)) (p : Nat) : Nat :=
  (idsOf all).indexOf p

/-- Children of layer id `p`, in insertion order. -/
def childrenOf (all : List (Nat × List Nat)) (p : Nat) : List Nat :=
  all.filterMap (fun e => if p ∈ e.2 then some e.1 else none)

/-- Cross-axis distance between the symmetric slots reserved for the
children of a branching parent. -/
def childSpread : ℚ := 6

/-- Modelled from the spec: symmetric cross-axis slot of child number `j`
(zero-based, insertion order) among a parent's `k` children: slots are
spaced `childSpread` apart and centred on the parent's own centre, so for
`k = 2` one child sits above and one below the parent's axis. -/
def childOffset (k j : Nat) : ℚ :=
  (((k : ℚ) - 1) / 2 - (j : ℚ)) * childSpread

/-- Modelled from the spec: cross-axis centre of the layer at insertion
index `k` given the centres `prev` of all earlier layers.  A root sits at
0; a single-parent layer takes its symmetric slot among that parent's
children; a multi-parent layer sits at the average of its parents'
centres. -/
def centerOf (all : List (Nat × List Nat)) (prev : List ℚ) (k : Nat) : ℚ :=
  match all.get? k with
  | none => 0
  | some (id, ps) =>
    match ps with
    | [] => 0
    | [p] =>
        prev.getD (idxIn all p) 0 +
          childOffset (childrenOf all p).length ((childrenOf all p).indexOf id)
    | _ => (ps.map (fun p => prev.getD (idxIn all p) 0)).sum / (ps.length : ℚ)

/-- Centres of the first `k` layers, computed in insertion order (which is
topological for a well-formed network, so parents are already placed). -/
def centersList (all : List (Nat × List Nat)) : Nat → List ℚ
  | 0 => []
  | k + 1 => centersList all k ++ [centerOf all (centersList all k) k]

/-- Cross-axis centre of the layer at insertion index `k`. -/
def layerCenter (all : List (Nat × List Nat)) (k : Nat) : ℚ :=
  (centersList all all.length).getD k 0

/-- Modelled from the spec: integer rank of the layer at index `k` — its
topological depth, one more than the deepest parent, 0 for a root. -/
def rankOf (all : List (Nat × List Nat)) (prev : List Nat) (k : Nat) : Nat :=
  match all.get? k with
  | none => 0
  | some (_, ps) =>
    match ps with
    | [] => 0
    | _ => 1 + (ps.map (fun p => prev.getD (idxIn all p) 0)).foldr max 0

/-- Ranks of the first `k` layers, in insertion order. -/
def ranksList (all : List (Nat × List Nat)) : Nat → List Nat
  | 0 => []
  | k + 1 => ranksList all k ++ [rankOf all (ranksList all k) k]

/-- Rank of the layer at insertion index `k`. -/
def layerRank (all : List (Nat × List Nat)) (k : Nat) : Nat :=
  (ranksList all all.length).getD k 0

/-! ## Layout Engine: intra-layer placement -/

/-- Cross-axis spacing between adjacent visible units of a layer. -/
def unitSpacing : ℚ := 1

/-- Modelled from the spec: cross-axis coordinates of a layer's visible
units, evenly spaced and centred on the layer's centre `c`, listed top to
bottom. -/
def unitCoords (cfg : PlotConfig) (n : Nat) (c : ℚ) : List ℚ :=
  (List.range (visibleCount cfg n)).map
    (fun (k : Nat) =>
      c + (((visibleCount cfg n : ℚ) - 1) / 2 - (k : ℚ)) * unitSpacing)

/-- Cross-axis extent of a layer: distance from its topmost to its
bottommost visible unit coordinate. -/
def layerExtent (cfg : PlotConfig) (n : Nat) (c : ℚ) : ℚ :=
  (unitCoords cfg n c).headD 0 - (unitCoords cfg n c).getLastD 0

/-- Modelled from the spec: the full layout result — for each layer (in
insertion order) the 2D coordinates of its visible units, primary axis
given by rank, cross axis by the intra-layer placement. -/
def layoutNetwork (cfg : PlotConfig) (nn : NeuralNetwork) :
    List (List (ℚ × ℚ)) :=
  let all := structureOf nn
  (List.range nn.layers.length).map (fun k =>
    let n := ((nn.layers.get? k).map (fun e => e.1.num_neurons)).getD 0
    (unitCoords cfg n (layerCenter all k)).map
      (fun y => ((layerRank all k : ℚ), y)))

/-! ## Renderer configuration check and Exporter -/

/-- Modelled from the spec: typed configuration errors reported before any
drawing occurs. -/
inductive ConfigError where
  | LabelCountMismatch (layer_name : String)
  deriving Repr, DecidableEq

/-- Whether a layer's declared explicit labels disagree with its unit
count. -/
def badLabels (e : FullyConnectedLayer × List Nat) : Bool :=
  match e.1.neuron_labels with
  | some ls => ls.length ≠ e.1.num_neurons
  | none => false

/-- Modelled from the spec: the pre-draw configuration check of the missing
renderer — every layer declaring explicit per-unit labels must declare
exactly one per unit. -/
def checkLabels (nn : NeuralNetwork) : Except ConfigError Unit :=
  match nn.layers.find? badLabels with
  | some e => .error (.LabelCountMismatch e.1.name)
  | none => .ok ()

/-- Modelled from the spec: `plot_network` up to the drawn scene — the
configuration check runs first, and only if it passes is the layout
produced for drawing; an error therefore precedes any drawing effect. -/
def render (cfg : PlotConfig) (nn : NeuralNetwork) :
    Except ConfigError (List (List (ℚ × ℚ))) :=
  match checkLabels nn with
  | .error e => .error e
  | .ok _ => .ok (layoutNetwork cfg nn)

/-- One requested export of a finished scene. -/
structure ExportRequest where
  fmt : String
  path : String
  dpi : Option Nat := none
  deriving Repr, DecidableEq

/-- Modelled from the spec: typed resource errors raised at export time. -/
inductive ExportError where
  | UnwritablePath (path : String)
  deriving Repr, DecidableEq

/-- Modelled from the spec: the missing exporter attempts every requested
format of the scene in turn; writing fails exactly on an unwritable target
path, independently for each request. -/
def exportScene (writable : String → Bool) (reqs : List ExportRequest) :
    List (String × Except ExportError Unit) :=
  reqs.map (fun r =>
    (r.fmt, if writable r.path then .ok () else .error (.UnwritablePath r.path)))

/-! ## The driver script (`PlottedNetworks/CEAS2025/generate_figures.py`)

The concrete graphs and configuration built by the visible script,
embedded from the source.  Layer ids are assigned in construction order
within each network. -/

/-- The script's collapsing thresholds: `MAX_NEURONS_PER_LAYER = 8`,
`COLLAPSE_NEURONS_START = 4`, `COLLAPSE_NEURONS_END = 4`, used by both
`config_publication` and `config_critic`. -/
def scriptConfig : PlotConfig :=
  { max_neurons_per_layer := 8
    collapse_neurons_start := 4
    collapse_neurons_end := 4 }

/-- `input_layer` of Figure 1: 6 neurons with 6 explicit labels. -/
def input_layer : FullyConnectedLayer :=
  { layer_id := 0, num_neurons := 6, name := "Input"
    neuron_labels := some
      ["$\\boldsymbol\x7bq\x7d_m$",
       "$\\dot\x7b\\boldsymbol\x7bq\x7d\x7d_m$",
       "$\\tilde\x7b\\boldsymbol\x7br\x7d\x7d$",
       "$\\tilde\x7b\\boldsymbol\x7b\\theta\x7d\x7d$",
       "$\\tilde\x7b\\boldsymbol\x7bv\x7d\x7d$",
       "$\\tilde\x7b\\boldsymbol\x7b\\omega\x7d\x7d$"]
    label_position := some "left" }

/-- `hidden1` of Figure 1: 300 neurons, relu. -/
def hidden1 : FullyConnectedLayer :=
  { layer_id := 1, num_neurons := 300, name := "Hidden_1"
    activation := some "relu" }

/-- `hidden2` of Figure 1: 300 neurons, relu. -/
def hidden2 : FullyConnectedLayer :=
  { layer_id := 2, num_neurons := 300, name := "Hidden_2"
    activation := some "relu" }

/-- `hidden3` of Figure 1: 300 neurons, relu. -/
def hidden3 : FullyConnectedLayer :=
  { layer_id := 3, num_neurons := 300, name := "Hidden_3"
    activation := some "relu" }

/-- `output_head1` of Figure 1: 7 neurons with 7 explicit labels. -/
def output_head1 : FullyConnectedLayer :=
  { layer_id := 4, num_neurons := 7, name := "Output_Head_1"
    activation := some "softmax"
    neuron_labels := some ((List.range 7).map
      (fun i => "$\\dot\x7b\\phi\x7d_" ++ toString (i + 1) ++ "$"))
    label_position := some "right" }

/-- `output_head2` of Figure 1: 7 neurons with 7 explicit labels. -/
def output_head2 : FullyConnectedLayer :=
  { layer_id := 5, num_neurons := 7, name := "Output_Head_2"
    activation := some "softmax"
    neuron_labels := some ((List.range 7).map
      (fun i => "$\\sigma_\x7b\\dot\x7b\\phi\x7d_" ++ toString (i + 1) ++ "\x7d$"))
    label_position := some "right" }

/-- The script's construction of the policy network `nn_main`: the five
`add_layer` calls of Figure 1 in order, each naming the previously built
layers as parents. -/
def nn_main : Except AddLayerError NeuralNetwork := do
  let g : NeuralNetwork := { name := "policy_network" }
  let g ← add_layer g input_layer []
  let g ← add_layer g hidden1 [input_layer.layer_id]
  let g ← add_layer g hidden2 [hidden1.layer_id]
  let g ← add_layer g hidden3 [hidden2.layer_id]
  let g ← add_layer g output_head1 [hidden3.layer_id]
  add_layer g output_head2 [hidden3.layer_id]

/-- `input_layer_critic` of Figure 2: 6 neurons with 6 explicit labels. -/
def input_layer_critic : FullyConnectedLayer :=
  { layer_id := 0, num_neurons := 6, name := "Input"
    neuron_labels := some
      ["$\\boldsymbol\x7bq\x7d_m$",
       "$\\dot\x7b\\boldsymbol\x7bq\x7d\x7d_m$",
       "$\\tilde\x7b\\boldsymbol\x7br\x7d\x7d$",
       "$\\tilde\x7b\\boldsymbol\x7bv\x7d\x7d$",
       "$\\tilde\x7b\\boldsymbol\x7b\\theta\x7d\x7d$",
       "$\\tilde\x7b\\boldsymbol\x7b\\omega\x7d\x7d$"]
    label_position := some "left" }

/-- `hidden1_critic` of Figure 2: 300 neurons, relu. -/
def hidden1_critic : FullyConnectedLayer :=
  { layer_id := 1, num_neurons := 300, name := "Hidden_1"
    activation := some "relu" }

/-- `hidden2_critic` of Figure 2: 300 neurons, relu. -/
def hidden2_critic : FullyConnectedLayer :=
  { layer_id := 2, num_neurons := 300, name := "Hidden_2"
    activation := some "relu" }

/-- `hidden3_critic` of Figure 2: 300 neurons, relu. -/
def hidden3_critic : FullyConnectedLayer :=
  { layer_id := 3, num_neurons := 300, name := "Hidden_3"
    activation := some "relu" }

/-- `output_critic` of Figure 2: 1 neuron with 1 explicit label. -/
def output_critic : FullyConnectedLayer :=
  { layer_id := 4, num_neurons := 1, name := "Output"
    activation := some "linear"
    neuron_labels := some ["$V_\\pi(s)$"]
    label_position := some "right" }

/-- The script's construction of the critic network `nn_critic`: the five
`add_layer` calls of Figure 2 in order. -/
def nn_critic : Except AddLayerError NeuralNetwork := do
  let g : NeuralNetwork := { name := "critic_network" }
  let g ← add_layer g input_layer_critic []
  let g ← add_layer g hidden1_critic [input_layer_critic.layer_id]
  let g ← add_layer g hidden2_critic [hidden1_critic.layer_id]
  let g ← add_layer g hidden3_critic [hidden2_critic.layer_id]
  add_layer g output_critic [hidden3_critic.layer_id]

/-- The policy network as frozen after the script's six `add_layer` calls. -/
def policyNet : NeuralNetwork :=
  { name := "policy_network"
    layers := [(input_layer, []),
               (hidden1, [input_layer.layer_id]),
               (hidden2, [hidden1.layer_id]),
               (hidden3, [hidden2.layer_id]),
               (output_head1, [hidden3.layer_id]),
               (output_head2, [hidden3.layer_id])] }

/-- The critic network as frozen after the script's five `add_layer`
calls. -/
def criticNet : NeuralNetwork :=
  { name := "critic_network"
    layers := [(input_layer_critic, []),
               (hidden1_critic, [input_layer_critic.layer_id]),
               (hidden2_critic, [hidden1_critic.layer_id]),
               (hidden3_critic, [hidden2_critic.layer_id]),
               (output_critic, [hidden3_critic.layer_id])] }

/-- A minimal branch-and-merge graph: one root, two children of the root,
one layer merging both children — used to exercise the symmetric-branch
and parent-average placement rules. -/
def diamondNet : NeuralNetwork :=
  { name := "diamond"
    layers := [({ layer_id := 0, num_neurons := 1, name := "r" }, []),
               ({ layer_id := 1, num_neurons := 1, name := "a" }, [0]),
               ({ layer_id := 2, num_neurons := 1, name := "b" }, [0]),
               ({ layer_id := 3, num_neurons := 1, name := "m" }, [1, 2])] }

/-- The three exports the script requests per scene. -/
def scriptExports : List ExportRequest :=
  [{ fmt := "pdf", path := "figures/policy_net.pdf", dpi := some 600 },
   { fmt := "png", path := "figures/policy_net.png", dpi := some 300 },
   { fmt := "svg", path := "figures/policy_net.svg" }]

/-- A filesystem in which only the PNG target path lost write permission. -/
def pngUnwritable : String → Bool :=
  fun p => p != "figures/policy_net.png"

/-! ## Theorems -/

/-- On a well-formed pending list, every entry is ready when reached, so
Kahn's algorithm emits the entries' ids in insertion order. -/
theorem kahnAux_wf : ∀ (entries : List (FullyConnectedLayer × List Nat))
    (seen : List Nat), wfAux seen entries = true →
    kahnAux entries.length seen entries = entries.map (fun e => e.1.layer_id)
  | [], _, _ => rfl
  | (l, ps) :: rest, seen, h => by
    simp only [wfAux, Bool.and_eq_true, Bool.not_eq_true'] at h
    obtain ⟨⟨⟨_, hps⟩, _⟩, hrest⟩ := h
    simp only [List.length_cons, kahnAux, pickReady, hps, if_true,
      List.map_cons]
    exact congrArg _ (kahnAux_wf rest (seen ++ [l.layer_id]) hrest)

/-- On a well-formed pending list no id repeats and none collides with an
already-seen id. -/
theorem wfAux_nodup : ∀ (entries : List (FullyConnectedLayer × List Nat))
    (seen : List Nat), wfAux seen entries = true →
    (∀ a ∈ entries.map (fun e => e.1.layer_id), a ∉ seen) ∧
      (entries.map (fun e => e.1.layer_id)).Nodup
  | [], _, _ => ⟨by simp, List.nodup_nil⟩
  | (l, ps) :: rest, seen, h => by
    simp only [wfAux, Bool.and_eq_true, Bool.not_eq_true'] at h
    obtain ⟨⟨⟨hfresh, _⟩, _⟩, hrest⟩ := h
    obtain ⟨ihseen, ihnodup⟩ := wfAux_nodup rest (seen ++ [l.layer_id]) hrest
    constructor
    · intro a ha
      rw [List.map_cons] at ha
      rcases List.mem_cons.mp ha with rfl | ha'
      · simpa using hfresh
      · intro hmem
        exact ihseen a ha' (List.mem_append_left _ hmem)
    · rw [List.map_cons]
      refine List.nodup_cons.mpr ⟨?_, ihnodup⟩
      intro hmem
      exact ihseen l.layer_id hmem (List.mem_append_right _ (by simp))

/-- On a well-formed pending list, every parent id of the entry at
position `k` is already seen or is the id of a strictly earlier entry. -/
theorem wfAux_parents_earlier :
    ∀ (entries : List (FullyConnectedLayer × List Nat)) (seen : List Nat),
    wfAux seen entries = true →
    ∀ (k : Nat) (e : FullyConnectedLayer × List Nat),
      entries.get? k = some e → ∀ p ∈ e.2,
      p ∈ seen ∨ ∃ j, j < k ∧
        (entries.map (fun e => e.1.layer_id)).get? j = some p
  | [], _, _, k, e, hk => by simp at hk
  | (l, ps) :: rest, seen, h, k, e, hk => by
    simp only [wfAux, Bool.and_eq_true, Bool.not_eq_true'] at h
    obtain ⟨⟨⟨_, hps⟩, _⟩, hrest⟩ := h
    match k with
    | 0 =>
      intro p hp
      obtain rfl : (l, ps) = e := by simpa using hk
      exact Or.inl (by simpa using List.all_eq_true.mp hps p hp)
    | k' + 1 =>
      intro p hp
      have hk' : rest.get? k' = some e := by simpa using hk
      rcases wfAux_parents_earlier rest (seen ++ [l.layer_id]) hrest k' e
          hk' p hp with hseen | ⟨j, hj, hjget⟩
      · rcases List.mem_append.mp hseen with h1 | h2
        · exact Or.inl h1
        · have hpl : p = l.layer_id := by simpa using h2
          exact Or.inr ⟨0, Nat.succ_pos _, by simp [hpl]⟩
      · exact Or.inr ⟨j + 1, by omega, by simpa using hjget⟩

/-- C3: on every well-formed graph, `topologicalOrder` lists every layer
id exactly once in insertion order (hence deterministically and stably),
and every parent id appears at a strictly earlier position than each
child that declares it. -/
theorem topologicalOrder_spec (nn : NeuralNetwork) (hwf : nn.wf = true) :
    topologicalOrder nn = nn.ids ∧
    (topologicalOrder nn).Nodup ∧
    ∀ (k : Nat) (e : FullyConnectedLayer × List Nat),
      nn.layers.get? k = some e → ∀ p ∈ e.2,
      ∃ j, j < k ∧ (topologicalOrder nn).get? j = some p := by
  have horder : topologicalOrder nn = nn.ids :=
    kahnAux_wf nn.layers [] hwf
  refine ⟨horder, ?_, ?_⟩
  · rw [horder]
    exact (wfAux_nodup nn.layers [] hwf).2
  · intro k e hk p hp
    rcases wfAux_parents_earlier nn.layers [] hwf k e hk p hp with
      habs | ⟨j, hj, hjget⟩
    · simp at habs
    · exact ⟨j, hj, by rw [horder]; exact hjget⟩

/-- C3 witness: the script's frozen policy network is well formed and its
topological order is its six layer ids in insertion order, with the
input's id preceding the first hidden layer's. -/
theorem topologicalOrder_spec_witness :
    policyNet.wf = true ∧ topologicalOrder policyNet = [0, 1, 2, 3, 4, 5] := by
  have h := topologicalOrder_spec policyNet (by decide)
  exact ⟨by decide, by rw [h.1]; decide⟩

/-- C4: `add_layer` fails with `CycleError` on a self-parent, with
`UnknownParentError` when a (non-self) parent id is absent, and with
`DuplicateIdError` when all parents exist but the new id is taken; any
failure propagates as an exception so the caller's graph is unchanged;
otherwise it appends the layer and records exactly the given parent
edges. -/
theorem add_layer_spec (nn : NeuralNetwork) (l : FullyConnectedLayer)
    (ps : List Nat) :
    (l.layer_id ∈ ps →
      add_layer nn l ps = .error (.CycleError l.layer_id)) ∧
    (l.layer_id ∉ ps → (∃ p ∈ ps, p ∉ nn.ids) →
      ∃ p, p ∈ ps ∧ p ∉ nn.ids ∧
        add_layer nn l ps = .error (.UnknownParentError p)) ∧
    (l.layer_id ∉ ps → (∀ p ∈ ps, p ∈ nn.ids) → l.layer_id ∈ nn.ids →
      add_layer nn l ps = .error (.DuplicateIdError l.layer_id)) ∧
    (∀ e, add_layer nn l ps = .error e → add_layer_run nn l ps = nn) ∧
    (l.layer_id ∉ ps → (∀ p ∈ ps, p ∈ nn.ids) → l.layer_id ∉ nn.ids →
      add_layer nn l ps = .ok ⟨nn.name, nn.layers ++ [(l, ps)]⟩) := by
  refine ⟨?_, ?_, ?_, ?_, ?_⟩
  · intro hself
    simp [add_layer, hself]
  · intro hself hmissing
    have hsome : (ps.find? (fun p => !(nn.ids.contains p))).isSome := by
      rw [List.find?_isSome]
      rcases hmissing with ⟨p, hp, hnp⟩
      exact ⟨p, hp, by simpa using hnp⟩
    obtain ⟨p₀, hp₀⟩ := Option.isSome_iff_exists.mp hsome
    refine ⟨p₀, List.mem_of_find?_eq_some hp₀, ?_, ?_⟩
    · simpa using List.find?_some hp₀
    · unfold add_layer
      rw [if_neg hself, hp₀]
  · intro hself hall hdup
    have hnone : ps.find? (fun p => !(nn.ids.contains p)) = none := by
      rw [List.find?_eq_none]
      intro p hp
      simpa using hall p hp
    unfold add_layer
    rw [if_neg hself, hnone, if_pos hdup]
  · intro e herr
    simp [add_layer_run, herr]
  · intro hself hall hfresh
    have hnone : ps.find? (fun p => !(nn.ids.contains p)) = none := by
      rw [List.find?_eq_none]
      intro p hp
      simpa using hall p hp
    unfold add_layer
    rw [if_neg hself, hnone, if_neg hfresh]

/-- C4 witness: on an empty network, adding the input layer with no
parents succeeds and appends it, while adding it with unknown parent id 7
fails with the unknown-parent error. -/
theorem add_layer_spec_witness :
    add_layer { name := "w" } input_layer [] =
      .ok { name := "w", layers := [(input_layer, [])] } ∧
    ∃ p, p ∈ [7] ∧ p ∉ (NeuralNetwork.ids { name := "w" }) ∧
      add_layer { name := "w" } input_layer [7] =
        .error (.UnknownParentError p) := by
  constructor
  · exact (add_layer_spec { name := "w" } input_layer []).2.2.2.2
      (by decide) (by simp) (by decide)
  · exact (add_layer_spec { name := "w" } input_layer [7]).2.1
      (by decide) ⟨7, by decide, by decide⟩

/-- C5: the layout is a pure function of the frozen graph and the style
configuration, so two runs on an unmodified graph and configuration
produce identical coordinates for every visible unit. -/
theorem layout_deterministic (nn₁ nn₂ : NeuralNetwork)
    (cfg₁ cfg₂ : PlotConfig) (hg : nn₁ = nn₂) (hc : cfg₁ = cfg₂) :
    layoutNetwork cfg₁ nn₁ = layoutNetwork cfg₂ nn₂ := by
  rw [hg, hc]

/-- C5 witness: two runs of the layout on the script's policy network and
configuration coincide. -/
theorem layout_deterministic_witness :
    layoutNetwork scriptConfig policyNet = layoutNetwork scriptConfig policyNet :=
  layout_deterministic policyNet policyNet scriptConfig scriptConfig rfl rfl

/-- C8: `render` fails with a label-count configuration error — before
producing any drawable layout — exactly when some layer declares explicit
labels whose count differs from its unit count; otherwise it draws. -/
theorem label_check_spec (cfg : PlotConfig) (nn : NeuralNetwork) :
    ((∃ e ∈ nn.layers, ∃ ls, e.1.neuron_labels = some ls ∧
        ls.length ≠ e.1.num_neurons) →
      ∃ lname, render cfg nn = .error (.LabelCountMismatch lname)) ∧
    ((∀ e ∈ nn.layers, ∀ ls, e.1.neuron_labels = some ls →
        ls.length = e.1.num_neurons) →
      render cfg nn = .ok (layoutNetwork cfg nn)) := by
  constructor
  · rintro ⟨e, he, ls, hls, hne⟩
    have hsome : (nn.layers.find? badLabels).isSome := by
      rw [List.find?_isSome]
      exact ⟨e, he, by simp [badLabels, hls, hne]⟩
    obtain ⟨e₀, he₀⟩ := Option.isSome_iff_exists.mp hsome
    refine ⟨e₀.1.name, ?_⟩
    unfold render checkLabels
    rw [he₀]
  · intro hall
    have hnone : nn.layers.find? badLabels = none := by
      rw [List.find?_eq_none]
      intro e he
      match hm : e.1.neuron_labels with
      | none => simp [badLabels, hm]
      | some ls => simp [badLabels, hm, hall e he ls hm]
    unfold render checkLabels
    rw [hnone]

/-- C8 witness: the policy network renders (all its label lists match
their unit counts), while a copy of the input layer declaring only 5
labels for 6 neurons makes `render` fail with the label-count error. -/
theorem label_check_spec_witness :
    render scriptConfig policyNet = .ok (layoutNetwork scriptConfig policyNet) ∧
    ∃ lname, render scriptConfig
        { name := "bad"
          layers := [({ layer_id := 0, num_neurons := 6, name := "Input"
                        neuron_labels := some ["a", "b", "c", "d", "e"] }, [])] } =
      .error (.LabelCountMismatch lname) := by
  constructor
  · refine (label_check_spec scriptConfig policyNet).2 ?_
    intro e he ls hls
    simp only [policyNet, List.mem_cons, List.mem_singleton] at he
    rcases he with rfl | rfl | rfl | rfl | rfl | rfl | h
    · simp [input_layer] at hls
      subst hls
      rfl
    · simp [hidden1] at hls
    · simp [hidden2] at hls
    · simp [hidden3] at hls
    · simp [output_head1] at hls
      subst hls
      rfl
    · simp [output_head2] at hls
      subst hls
      rfl
    · simp at h
  · refine (label_check_spec scriptConfig _).1 ?_
    exact ⟨({ layer_id := 0, num_neurons := 6, name := "Input"
              neuron_labels := some ["a", "b", "c", "d", "e"] }, []),
      by simp, ["a", "b", "c", "d", "e"], rfl, by decide⟩

/-- A nonempty layer has at least one visible unit. -/
theorem visibleCount_pos (cfg : PlotConfig) (n : Nat) (hn : 0 < n) :
    0 < visibleCount cfg n := by
  by_cases h : n ≤ cfg.max_neurons_per_layer <;>
    simp [visibleCount, visibleUnits, h]
  omega

/-- The topmost visible unit of a layer sits half the layer's span above
its centre. -/
theorem unitCoords_headD (cfg : PlotConfig) (n : Nat) (c : ℚ)
    (hv : 0 < visibleCount cfg n) :
    (unitCoords cfg n c).headD 0 =
      c + ((visibleCount cfg n : ℚ) - 1) / 2 * unitSpacing := by
  rw [unitCoords, List.headD_eq_head?, List.head?_eq_getElem?,
    List.getElem?_map, List.getElem?_range hv]
  simp only [Option.map_some', Option.getD_some, Nat.cast_zero, sub_zero]

/-- The bottommost visible unit of a layer sits half the layer's span
below its centre. -/
theorem unitCoords_getLastD (cfg : PlotConfig) (n : Nat) (c : ℚ)
    (hv : 0 < visibleCount cfg n) :
    (unitCoords cfg n c).getLastD 0 =
      c + (((visibleCount cfg n : ℚ) - 1) / 2 -
        ((visibleCount cfg n - 1 : Nat) : ℚ)) * unitSpacing := by
  rw [unitCoords, List.getLastD_eq_getLast?, List.getLast?_eq_getElem?]
  simp only [List.length_map, List.length_range]
  rw [List.getElem?_map,
    List.getElem?_range (by omega : visibleCount cfg n - 1 < visibleCount cfg n)]
  simp only [Option.map_some', Option.getD_some]

/-- C7: a layer's cross-axis extent is `(visibleCount − 1) · unitSpacing`,
a function of its visible-unit count alone — so any two layers collapsed
under the same thresholds occupy the same extent regardless of their true
unit counts. -/
theorem layer_extent_spec (cfg : PlotConfig) :
    (∀ (n : Nat) (c : ℚ), 0 < n →
      layerExtent cfg n c = ((visibleCount cfg n : ℚ) - 1) * unitSpacing) ∧
    ∀ (n₁ n₂ : Nat) (c₁ c₂ : ℚ),
      cfg.max_neurons_per_layer < n₁ → cfg.max_neurons_per_layer < n₂ →
      layerExtent cfg n₁ c₁ = layerExtent cfg n₂ c₂ := by
  have hext : ∀ (n : Nat) (c : ℚ), 0 < n →
      layerExtent cfg n c = ((visibleCount cfg n : ℚ) - 1) * unitSpacing := by
    intro n c hn
    have hv := visibleCount_pos cfg n hn
    rw [layerExtent, unitCoords_headD cfg n c hv, unitCoords_getLastD cfg n c hv]
    have hc : ((visibleCount cfg n - 1 : Nat) : ℚ) =
        (visibleCount cfg n : ℚ) - 1 := by
      push_cast [hv]
      ring
    rw [hc]
    ring
  refine ⟨hext, ?_⟩
  intro n₁ n₂ c₁ c₂ h₁ h₂
  have hcount : ∀ n, cfg.max_neurons_per_layer < n →
      visibleCount cfg n =
        cfg.collapse_neurons_start + cfg.collapse_neurons_end + 1 := by
    intro n hn
    simp [visibleCount, visibleUnits, Nat.not_le.mpr hn]
    omega
  rw [hext n₁ c₁ (by omega), hext n₂ c₂ (by omega), hcount n₁ h₁, hcount n₂ h₂]

/-- C7 witness: under the script's thresholds a 300-unit and a 3000-unit
layer have the same extent, namely 8 unit spacings. -/
theorem layer_extent_spec_witness :
    layerExtent scriptConfig 300 0 = layerExtent scriptConfig 3000 0 ∧
    layerExtent scriptConfig 300 0 =
      ((visibleCount scriptConfig 300 : ℚ) - 1) * unitSpacing := by
  constructor
  · exact (layer_extent_spec scriptConfig).2 300 3000 0 0 (by decide) (by decide)
  · exact (layer_extent_spec scriptConfig).1 300 0 (by decide)

/-- `centersList` computes one centre per layer considered. -/
theorem centersList_length (all : List (Nat × List Nat)) :
    ∀ k, (centersList all k).length = k
  | 0 => rfl
  | k + 1 => by
    simp [centersList, centersList_length all k]

/-- Once placed, a layer's centre is never revisited: position `j` of any
longer centre list holds the centre computed from the first `j` layers. -/
theorem centersList_get? (all : List (Nat × List Nat)) :
    ∀ k j, j < k → (centersList all k).get? j =
      some (centerOf all (centersList all j) j)
  | 0, j, hj => absurd hj (Nat.not_lt_zero j)
  | k + 1, j, hj => by
    rw [centersList]
    rcases Nat.lt_or_ge j k with hk | hk
    · rw [List.get?_append (by rw [centersList_length]; exact hk)]
      exact centersList_get? all k j hk
    · have hjk : j = k := by omega
      subst hjk
      rw [List.get?_append_right (by rw [centersList_length])]
      simp [centersList_length]

/-- `layerCenter` agrees with the incremental computation. -/
theorem layerCenter_eq (all : List (Nat × List Nat)) (k : Nat)
    (hk : k < all.length) :
    layerCenter all k = centerOf all (centersList all k) k := by
  rw [layerCenter, List.getD_eq_getElem?_getD, ← List.get?_eq_getElem?,
    centersList_get? all all.length k hk]
  rfl

/-- Looking a placed layer up in any sufficiently long centre list gives
its final centre. -/
theorem centersList_getD (all : List (Nat × List Nat)) (j k : Nat)
    (hjk : j < k) (hk : k ≤ all.length) :
    (centersList all k).getD j 0 = layerCenter all j := by
  rw [List.getD_eq_getElem?_getD, ← List.get?_eq_getElem?,
    centersList_get? all k j hjk,
    layerCenter_eq all j (by omega)]
  rfl

/-- C6: a parent whose two children each name it as sole parent has those
children placed symmetrically about its own centre — one half a spread
above, one half a spread below — and any layer with two or more parents
is placed at the cross-axis average of its parents' centres. -/
theorem branch_symmetry_spec (all : List (Nat × List Nat))
    (ip ia ib p a b : Nat) (pps : List Nat)
    (hp : all.get? ip = some (p, pps))
    (ha : all.get? ia = some (a, [p]))
    (hb : all.get? ib = some (b, [p]))
    (hidx : idxIn all p = ip)
    (hipa : ip < ia) (hipb : ip < ib)
    (hch : childrenOf all p = [a, b])
    (hab : a ≠ b) :
    (layerCenter all ia = layerCenter all ip + childSpread / 2 ∧
     layerCenter all ib = layerCenter all ip - childSpread / 2 ∧
     layerCenter all ia + layerCenter all ib = 2 * layerCenter all ip ∧
     layerCenter all ip < layerCenter all ia ∧
     layerCenter all ib < layerCenter all ip) ∧
    ∀ (ic c : Nat) (ps : List Nat),
      all.get? ic = some (c, ps) → 2 ≤ ps.length →
      (∀ q ∈ ps, idxIn all q < ic) →
      layerCenter all ic =
        (ps.map (fun q => layerCenter all (idxIn all q))).sum /
          (ps.length : ℚ) := by
  have hlen : ∀ {i : Nat} {e : Nat × List Nat}, all.get? i = some e →
      i < all.length := by
    intro i e he
    by_contra hle
    rw [List.get?_eq_none.mpr (by omega)] at he
    exact absurd he (by simp)
  have hia := hlen ha
  have hib := hlen hb
  have hcenter_a : layerCenter all ia = layerCenter all ip + childSpread / 2 := by
    rw [layerCenter_eq all ia hia]
    simp only [centerOf, ha]
    rw [hidx, hch, centersList_getD all ip ia hipa (by omega),
      List.indexOf_cons_self]
    rw [show ([a, b] : List Nat).length = 2 from rfl, childOffset, childSpread]
    push_cast
    ring
  have hcenter_b : layerCenter all ib = layerCenter all ip - childSpread / 2 := by
    rw [layerCenter_eq all ib hib]
    simp only [centerOf, hb]
    have hox : ([a, b].indexOf b) = 1 := by
      have hne : (a == b) = false := beq_eq_false_iff_ne.mpr hab
      simp [List.indexOf_cons, hne]
    rw [hidx, hch, centersList_getD all ip ib hipb (by omega), hox]
    rw [show ([a, b] : List Nat).length = 2 from rfl, childOffset, childSpread]
    push_cast
    ring
  have hpos : (0 : ℚ) < childSpread / 2 := by
    rw [childSpread]
    norm_num
  refine ⟨⟨hcenter_a, hcenter_b, by rw [hcenter_a, hcenter_b]; ring,
    by rw [hcenter_a]; linarith, by rw [hcenter_b]; linarith⟩, ?_⟩
  intro ic c ps hic hps hqs
  have hicl := hlen hic
  rw [layerCenter_eq all ic hicl, centerOf, hic]
  match ps, hps with
  | q₁ :: q₂ :: t, _ =>
    have hmaps : ∀ q ∈ q₁ :: q₂ :: t,
        (centersList all ic).getD (idxIn all q) 0 =
          layerCenter all (idxIn all q) := by
      intro q hq
      exact centersList_getD all (idxIn all q) ic (hqs q hq) (by omega)
    simp only []
    rw [List.map_congr_left hmaps]

/-- C6 witness: in the diamond graph, the root's two children sit at +3
and −3 around the root's centre 0, and the merging layer sits at their
average. -/
theorem branch_symmetry_spec_witness :
    layerCenter (structureOf diamondNet) 1 +
        layerCenter (structureOf diamondNet) 2 =
      2 * layerCenter (structureOf diamondNet) 0 ∧
    layerCenter (structureOf diamondNet) 3 =
      ([1, 2].map (fun q => layerCenter (structureOf diamondNet)
        (idxIn (structureOf diamondNet) q))).sum / 2 := by
  have h := branch_symmetry_spec (structureOf diamondNet) 0 1 2 0 1 2 []
    (by decide) (by decide) (by decide) (by decide) (by decide) (by decide)
    (by decide) (by decide)
  refine ⟨h.1.2.2.1, ?_⟩
  have h2 := h.2 3 3 [1, 2] (by decide) (by decide) (by decide)
  simpa using h2

/-- C9: the exporter attempts every requested format: the outcome recorded
for each request is determined by that request's own target path alone —
an unwritable path yields a typed failure for that format only, and the
same request exported alone yields the same outcome. -/
theorem export_independent_spec (writable : String → Bool)
    (reqs : List ExportRequest) (k : Nat) (r : ExportRequest)
    (hk : reqs.get? k = some r) :
    (exportScene writable reqs).length = reqs.length ∧
    (exportScene writable reqs).get? k = some (r.fmt,
      if writable r.path then .ok () else .error (.UnwritablePath r.path)) ∧
    exportScene writable [r] = [(r.fmt,
      if writable r.path then .ok () else .error (.UnwritablePath r.path))] := by
  refine ⟨by simp [exportScene], ?_, rfl⟩
  rw [exportScene, List.get?_map, hk]
  rfl

/-- C9 witness: exporting the scene to pdf, png and svg with only the png
path unwritable fails the png export alone; pdf and svg still succeed. -/
theorem export_independent_spec_witness :
    (exportScene pngUnwritable scriptExports).get? 0 = some ("pdf", .ok ()) ∧
    (exportScene pngUnwritable scriptExports).get? 1 =
      some ("png", .error (.UnwritablePath "figures/policy_net.png")) ∧
    (exportScene pngUnwritable scriptExports).get? 2 = some ("svg", .ok ()) := by
  refine ⟨?_, ?_, ?_⟩
  · have h := (export_independent_spec pngUnwritable scriptExports 0
      { fmt := "pdf", path := "figures/policy_net.pdf", dpi := some 600 }
      (by rfl)).2.1
    rw [h]
    rfl
  · have h := (export_independent_spec pngUnwritable scriptExports 1
      { fmt := "png", path := "figures/policy_net.png", dpi := some 300 }
      (by rfl)).2.1
    rw [h]
    rfl
  · have h := (export_independent_spec pngUnwritable scriptExports 2
      { fmt := "svg", path := "figures/policy_net.svg" } (by rfl)).2.1
    rw [h]
    rfl

/-- C1: a layer with at most `maxUnitsPerLayer` units keeps exactly its
`unitCount` visible units, in original order, with no ellipsis; a larger
layer keeps exactly `collapseStart + collapseEnd + 1` visible units — the
first `collapseStart` and last `collapseEnd` original indices in original
index order, with exactly one ellipsis placeholder between them, sitting
at position `collapseStart`. -/
theorem collapse_policy_spec (cfg : PlotConfig) (n : Nat) :
    (n ≤ cfg.max_neurons_per_layer →
      visibleCount cfg n = n ∧
      VUnit.ellipsis ∉ visibleUnits cfg n ∧
      realIndices (visibleUnits cfg n) = List.range n) ∧
    (cfg.max_neurons_per_layer < n →
      visibleCount cfg n =
        cfg.collapse_neurons_start + cfg.collapse_neurons_end + 1 ∧
      (visibleUnits cfg n).count VUnit.ellipsis = 1 ∧
      (visibleUnits cfg n).get? cfg.collapse_neurons_start =
        some VUnit.ellipsis ∧
      realIndices (visibleUnits cfg n) =
        List.range cfg.collapse_neurons_start ++
          (List.range cfg.collapse_neurons_end).map
            (fun i => n - cfg.collapse_neurons_end + i)) := by
  constructor
  · intro h
    refine ⟨?_, ?_, ?_⟩
    · simp [visibleCount, visibleUnits, h]
    · simp [visibleUnits, h]
    · simp [realIndices, visibleUnits, h, List.filterMap_map,
        Function.comp_def]
  · intro h
    have h' : ¬ n ≤ cfg.max_neurons_per_layer := Nat.not_le.mpr h
    refine ⟨?_, ?_, ?_, ?_⟩
    · simp [visibleCount, visibleUnits, h']
      omega
    · have hz1 : List.count VUnit.ellipsis
          ((List.range cfg.collapse_neurons_start).map VUnit.real) = 0 :=
        List.count_eq_zero.mpr (by simp)
      have hz2 : List.count VUnit.ellipsis
          ((List.range cfg.collapse_neurons_end).map
            (fun i => VUnit.real (n - cfg.collapse_neurons_end + i))) = 0 :=
        List.count_eq_zero.mpr (by simp)
      simp [visibleUnits, h', List.count_append, hz1, hz2]
    · rw [visibleUnits, if_neg h', List.append_assoc,
        List.get?_append_right (by simp)]
      simp
    · have hsome : (fun x => some (n - cfg.collapse_neurons_end + x)) =
          some ∘ (fun i => n - cfg.collapse_neurons_end + i) := rfl
      simp only [realIndices, visibleUnits, h', if_false,
        List.filterMap_append, List.filterMap_map, Function.comp_def]
      rw [hsome, List.filterMap_eq_map]
      simp

/-- C1 witness: the script's thresholds on a 300-unit layer give exactly
9 visible units, one ellipsis at position 4, and original indices 0–3 and
296–299 in order; a 6-unit layer keeps all 6 with no ellipsis. -/
theorem collapse_policy_spec_witness :
    visibleCount scriptConfig 300 = 4 + 4 + 1 ∧
    (visibleUnits scriptConfig 300).count VUnit.ellipsis = 1 ∧
    visibleCount scriptConfig 6 = 6 ∧
    VUnit.ellipsis ∉ visibleUnits scriptConfig 6 := by
  have h300 := (collapse_policy_spec scriptConfig 300).2 (by decide)
  have h6 := (collapse_policy_spec scriptConfig 6).1 (by decide)
  exact ⟨h300.1, h300.2.1, h6.1, h6.2.1⟩

/-- Any in-range original index is redirected to a member of the
visible-unit list: to itself when visible, to the ellipsis otherwise. -/
theorem redirect_mem (cfg : PlotConfig) (n i : Nat) (hi : i < n) :
    redirectUnit cfg n i ∈ visibleUnits cfg n := by
  by_cases hle : n ≤ cfg.max_neurons_per_layer
  · have hv : isVisibleIdx cfg n i = true := by simp [isVisibleIdx, hle]
    simp only [redirectUnit, hv, if_true, visibleUnits, if_pos hle]
    exact List.mem_map.mpr ⟨i, List.mem_range.mpr hi, rfl⟩
  · by_cases hv : isVisibleIdx cfg n i = true
    · have hcase : i < cfg.collapse_neurons_start ∨
          n - cfg.collapse_neurons_end ≤ i := by
        simpa [isVisibleIdx, hle] using hv
      simp only [redirectUnit, hv, if_true, visibleUnits, if_neg hle,
        List.mem_append, List.mem_map, List.mem_range, List.mem_singleton]
      rcases hcase with h1 | h2
      · exact Or.inl (Or.inl ⟨i, h1, rfl⟩)
      · refine Or.inr ⟨i - (n - cfg.collapse_neurons_end), by omega, ?_⟩
        congr 1
        omega
    · simp only [redirectUnit, hv, if_false, visibleUnits, if_neg hle,
        List.mem_append, List.mem_singleton]
      exact Or.inl (Or.inr rfl)

/-- C2: every true connection endpoint is redirected to a unit that is
visible in the layout (itself when visible, the ellipsis when collapsed),
and every drawn segment joins visible units only. -/
theorem connection_redirect_spec (cfg : PlotConfig) (m n i j : Nat)
    (hi : i < m) (hj : j < n) :
    redirectUnit cfg m i ∈ visibleUnits cfg m ∧
    redirectUnit cfg n j ∈ visibleUnits cfg n ∧
    (redirectUnit cfg m i = VUnit.real i ↔ isVisibleIdx cfg m i = true) ∧
    ∀ c ∈ drawnConnections cfg m n,
      c.1 ∈ visibleUnits cfg m ∧ c.2 ∈ visibleUnits cfg n := by
  refine ⟨redirect_mem cfg m i hi, redirect_mem cfg n j hj, ?_, ?_⟩
  · constructor
    · intro h
      by_contra hv
      simp [redirectUnit, hv] at h
    · intro h
      simp [redirectUnit, h]
  · intro c hc
    rcases List.mem_flatMap.mp hc with ⟨u, hu, hc'⟩
    rcases List.mem_map.mp hc' with ⟨v, hv, rfl⟩
    exact ⟨hu, hv⟩

/-- C2 witness: under the script's thresholds, endpoint 150 of a 300-unit
layer is redirected to the ellipsis, endpoint 2 stays at itself, and both
land in the visible-unit list. -/
theorem connection_redirect_spec_witness :
    redirectUnit scriptConfig 300 150 = VUnit.ellipsis ∧
    redirectUnit scriptConfig 300 2 = VUnit.real 2 ∧
    redirectUnit scriptConfig 300 150 ∈ visibleUnits scriptConfig 300 := by
  refine ⟨by decide, by decide, ?_⟩
  exact (connection_redirect_spec scriptConfig 300 300 150 150
    (by decide) (by decide)).1

/-- C10: the driver script satisfies every graph-construction and
configuration precondition of the engine: each of its `add_layer` calls
succeeds (parents already present, no duplicate ids), both constructions
produce well-formed frozen networks, every declared label list matches its
layer's unit count (6, 7, 7 and 6, 1), and both `plot_network`
configuration checks pass so both renders reach drawing. -/
theorem script_preconditions :
    nn_main = .ok policyNet ∧
    nn_critic = .ok criticNet ∧
    policyNet.wf = true ∧
    criticNet.wf = true ∧
    (input_layer.neuron_labels.getD []).length = 6 ∧
    (output_head1.neuron_labels.getD []).length = 7 ∧
    (output_head2.neuron_labels.getD []).length = 7 ∧
    (input_layer_critic.neuron_labels.getD []).length = 6 ∧
    (output_critic.neuron_labels.getD []).length = 1 ∧
    checkLabels policyNet = .ok () ∧
    checkLabels criticNet = .ok () ∧
    render scriptConfig policyNet = .ok (layoutNetwork scriptConfig policyNet) ∧
    render scriptConfig criticNet = .ok (layoutNetwork scriptConfig criticNet) := by
  refine ⟨rfl, rfl, by decide, by decide, rfl, rfl, rfl, rfl, rfl,
    rfl, rfl, rfl, rfl⟩

end PlotNet
